import Mathlib

/-!
Verification of the build-configuration descriptor model of HNP_PHP.

The repository ships one generated artifact,
`src/php8.3/include/php/main/build-defs.h`: a flat list of preprocessor
constants recording the filesystem layout and feature flags chosen when the
PHP runtime was configured.  The specification describes this artifact as an
instance of an immutable `ConfigDescriptor` record with a closed schema and a
`load` / `get` / `serialize` contract.  The loader itself is not part of the
source tree (only the generated constants are), so the `load` / `get` /
`serialize` operations below are modelled from the specification, while the
concrete key/value content is transcribed from `build-defs.h`.
-/

namespace HNPPHP

/-- The double-quote character used by the `NAME = "value"` line format. -/
def dq : Char := Char.ofNat 34

/-- The single-quote character, used inside the recorded configure command. -/
def sq : Char := Char.ofNat 39

/-- The single-quote character as a one-character string. -/
def sqs : String := String.mk [sq]

/-- Modelled from the spec: the fixed, enumerated set of configuration keys
(the closed schema of §3/§6), one key per constant of `build-defs.h`, in the
order the constants appear in the artifact.  Names follow the spec's
abstracted naming (`install_prefix`, `binary_dir`, `driver_flags`, ...). -/
def schema : List String :=
  ["configure_invocation_string",
   "driver_flags",
   "driver_ldflags",
   "driver_libs",
   "driver_name",
   "driver_dir",
   "driver_version",
   "sendmail_path",
   "pear_install_dir",
   "include_path",
   "extension_dir",
   "install_prefix",
   "binary_dir",
   "admin_binary_dir",
   "manual_page_dir",
   "library_dir",
   "shared_data_dir",
   "system_config_dir",
   "variable_state_dir",
   "config_file_path",
   "config_file_scan_dir",
   "shared_lib_suffix",
   "shared_lib_ext_pfx"]

/-- Modelled from the spec: a `ConfigDescriptor` is an immutable record of
named configuration values — a mapping from schema keys to opaque strings,
kept as an association list in schema order. -/
structure ConfigDescriptor where
  fields : List (String × String)
deriving DecidableEq

/-- Modelled from the spec: the error raised by `load` on a structurally
invalid source (§7). -/
inductive LoadError where
  | MalformedDescriptor
deriving DecidableEq

/-- Modelled from the spec: the error raised by `get` on a key outside the
closed schema (§7). -/
inductive GetError where
  | UnknownKey
deriving DecidableEq

/-- Modelled from the spec: parse one `NAME = "value"` declaration line
(char-level).  The key is everything before the first space, the separator is
the literal ` = `, and the value is the double-quoted remainder of the line;
any other shape is unparsable. -/
def parseLineChars (cs : List Char) : Option (List Char × List Char) :=
  if (cs.dropWhile (fun c => c != ' ')).take 4 = [' ', '=', ' ', dq] ∧
      (cs.dropWhile (fun c => c != ' ')).drop 4 =
        ((cs.dropWhile (fun c => c != ' ')).drop 4).takeWhile (fun c => c != dq) ++ [dq] then
    some (cs.takeWhile (fun c => c != ' '),
      ((cs.dropWhile (fun c => c != ' ')).drop 4).takeWhile (fun c => c != dq))
  else none

/-- Modelled from the spec: render one key/value pair as its
`NAME = "value"` declaration line (char-level). -/
def serializeLineChars (k v : List Char) : List Char :=
  k ++ ' ' :: '=' :: ' ' :: dq :: (v ++ [dq])

/-- Render one key/value field of a descriptor as its declaration line. -/
def serializeLine (kv : String × String) : String :=
  String.mk (serializeLineChars kv.1.toList kv.2.toList)

/-- Modelled from the spec: `serialize` emits the descriptor in the declared
flat `NAME = "value"` format, one line per field, deterministically in field
order (§4.1/§6). -/
def serialize (d : ConfigDescriptor) : List String :=
  d.fields.map serializeLine

/-- Parse every line of a source, failing if any line is unparsable. -/
def parseLines : List String → Option (List (String × String))
  | [] => some []
  | l :: ls =>
    match parseLineChars l.toList, parseLines ls with
    | some kv, some rest => some ((String.mk kv.1, String.mk kv.2) :: rest)
    | _, _ => none

/-- Modelled from the spec: `load` parses a structured source (a list of
`NAME = "value"` declaration lines) into a descriptor, failing with
`MalformedDescriptor` unless every line parses and the declared keys are
exactly the closed schema — all-or-nothing, no defaults for missing keys
(§4.1/§7). -/
def load (src : List String) : Except LoadError ConfigDescriptor :=
  match parseLines src with
  | none => .error .MalformedDescriptor
  | some pairs =>
    if pairs.map Prod.fst = schema then .ok ⟨pairs⟩
    else .error .MalformedDescriptor

/-- Modelled from the spec: `get` returns the value of a declared key and
fails with `UnknownKey` for any key outside the closed schema (§4.1). -/
def get (d : ConfigDescriptor) (k : String) : Except GetError String :=
  match d.fields.lookup k with
  | some v => .ok v
  | none => .error .UnknownKey

/-- The key under which a source line declares a value, if the line parses. -/
def lineKey (l : String) : Option String :=
  (parseLineChars l.toList).map (fun kv => String.mk kv.1)

/-- Wrap a string in single quotes, as the recorded configure command does. -/
def q (s : String) : String := sqs ++ s ++ sqs

/-- The options recorded in the `CONFIGURE_COMMAND` constant of
`build-defs.h`, in order. -/
def configureOpts : List String :=
  ["--prefix=/home/rui/HNP_PHP/php8.3", "--enable-cli", "--disable-all", "--enable-json",
   "--enable-phar", "--enable-simplexml", "--enable-dom", "--with-libxml", "--enable-tokenizer",
   "--enable-filter", "--enable-mbstring", "--with-openssl", "--with-curl", "--enable-session",
   "--enable-fileinfo", "--enable-xml", "--enable-ftp", "--with-gmp", "--with-iconv",
   "--enable-xmlwriter", "--enable-intl", "--enable-ctype"]

/-- `CONFIGURE_COMMAND` from `build-defs.h`: the literal configuration
invocation string (a leading space, the quoted program name, two spaces, then
the single-quoted options separated by single spaces). -/
def CONFIGURE_COMMAND : String :=
  " " ++ q "./configure" ++ "  " ++ String.intercalate " " (configureOpts.map q)

/-- `PHP_ODBC_CFLAGS` from `build-defs.h` (ODBC driver disabled). -/
def PHP_ODBC_CFLAGS : String := ""

/-- `PHP_ODBC_LFLAGS` from `build-defs.h`. -/
def PHP_ODBC_LFLAGS : String := ""

/-- `PHP_ODBC_LIBS` from `build-defs.h`. -/
def PHP_ODBC_LIBS : String := ""

/-- `PHP_ODBC_TYPE` from `build-defs.h`. -/
def PHP_ODBC_TYPE : String := ""

/-- `PHP_OCI8_DIR` from `build-defs.h` (OCI8 driver disabled). -/
def PHP_OCI8_DIR : String := ""

/-- `PHP_OCI8_ORACLE_VERSION` from `build-defs.h`. -/
def PHP_OCI8_ORACLE_VERSION : String := ""

/-- `PHP_PROG_SENDMAIL` from `build-defs.h`. -/
def PHP_PROG_SENDMAIL : String := "/usr/sbin/sendmail"

/-- `PEAR_INSTALLDIR` from `build-defs.h`. -/
def PEAR_INSTALLDIR : String := ""

/-- `PHP_INCLUDE_PATH` from `build-defs.h`. -/
def PHP_INCLUDE_PATH : String := ".:"

/-- `PHP_EXTENSION_DIR` from `build-defs.h`. -/
def PHP_EXTENSION_DIR : String :=
  "/home/rui/HNP_PHP/php8.3/lib/php/extensions/no-debug-non-zts-20230831"

/-- The `PHP_PREFIX` constant from `build-defs.h` (the installation root). -/
def PHP_PREFIX_VALUE : String := "/home/rui/HNP_PHP/php8.3"

/-- `PHP_BINDIR` from `build-defs.h`. -/
def PHP_BINDIR : String := "/home/rui/HNP_PHP/php8.3/bin"

/-- `PHP_SBINDIR` from `build-defs.h`. -/
def PHP_SBINDIR : String := "/home/rui/HNP_PHP/php8.3/sbin"

/-- `PHP_MANDIR` from `build-defs.h`. -/
def PHP_MANDIR : String := "/home/rui/HNP_PHP/php8.3/php/man"

/-- `PHP_LIBDIR` from `build-defs.h`. -/
def PHP_LIBDIR : String := "/home/rui/HNP_PHP/php8.3/lib/php"

/-- `PHP_DATADIR` from `build-defs.h`. -/
def PHP_DATADIR : String := "/home/rui/HNP_PHP/php8.3/share/php"

/-- `PHP_SYSCONFDIR` from `build-defs.h`. -/
def PHP_SYSCONFDIR : String := "/home/rui/HNP_PHP/php8.3/etc"

/-- `PHP_LOCALSTATEDIR` from `build-defs.h`. -/
def PHP_LOCALSTATEDIR : String := "/home/rui/HNP_PHP/php8.3/var"

/-- `PHP_CONFIG_FILE_PATH` from `build-defs.h`. -/
def PHP_CONFIG_FILE_PATH : String := "/home/rui/HNP_PHP/php8.3/lib"

/-- `PHP_CONFIG_FILE_SCAN_DIR` from `build-defs.h`. -/
def PHP_CONFIG_FILE_SCAN_DIR : String := ""

/-- `PHP_SHLIB_SUFFIX` from `build-defs.h`. -/
def PHP_SHLIB_SUFFIX : String := "so"

/-- The `PHP_SHLIB_EXT_PREFIX` constant from `build-defs.h`. -/
def PHP_SHLIB_EXT_PREFIX_VALUE : String := ""

/-- The concrete field list this artifact records: each schema key paired
with the corresponding constant of `build-defs.h`, in artifact order. -/
def buildDefs : List (String × String) :=
  [("configure_invocation_string", CONFIGURE_COMMAND),
   ("driver_flags", PHP_ODBC_CFLAGS),
   ("driver_ldflags", PHP_ODBC_LFLAGS),
   ("driver_libs", PHP_ODBC_LIBS),
   ("driver_name", PHP_ODBC_TYPE),
   ("driver_dir", PHP_OCI8_DIR),
   ("driver_version", PHP_OCI8_ORACLE_VERSION),
   ("sendmail_path", PHP_PROG_SENDMAIL),
   ("pear_install_dir", PEAR_INSTALLDIR),
   ("include_path", PHP_INCLUDE_PATH),
   ("extension_dir", PHP_EXTENSION_DIR),
   ("install_prefix", PHP_PREFIX_VALUE),
   ("binary_dir", PHP_BINDIR),
   ("admin_binary_dir", PHP_SBINDIR),
   ("manual_page_dir", PHP_MANDIR),
   ("library_dir", PHP_LIBDIR),
   ("shared_data_dir", PHP_DATADIR),
   ("system_config_dir", PHP_SYSCONFDIR),
   ("variable_state_dir", PHP_LOCALSTATEDIR),
   ("config_file_path", PHP_CONFIG_FILE_PATH),
   ("config_file_scan_dir", PHP_CONFIG_FILE_SCAN_DIR),
   ("shared_lib_suffix", PHP_SHLIB_SUFFIX),
   ("shared_lib_ext_pfx", PHP_SHLIB_EXT_PREFIX_VALUE)]

/-- The concrete descriptor recorded by this artifact (`build-defs.h`). -/
def theDescriptor : ConfigDescriptor := ⟨buildDefs⟩

/-- The schema keys naming installation-layout directories (binary,
admin-binary, manual-page, library, shared-data, system-config,
variable-state, extension and config-file-path directories). -/
def layoutDirKeys : List String :=
  ["binary_dir", "admin_binary_dir", "manual_page_dir", "library_dir",
   "shared_data_dir", "system_config_dir", "variable_state_dir",
   "extension_dir", "config_file_path"]

/-- Whether `get` on `theDescriptor` yields a value that starts with the
recorded installation root `PHP_PREFIX_VALUE`. -/
def underInstallRoot (k : String) : Bool :=
  match get theDescriptor k with
  | .ok v => PHP_PREFIX_VALUE.toList.isPrefixOf v.toList
  | .error _ => false

/-- Scan a character list for the first occurrence of `marker` and return
everything after it, or `none` when `marker` does not occur. -/
def afterMarker (marker : List Char) : List Char → Option (List Char)
  | [] => if marker.isEmpty then some [] else none
  | c :: rest =>
    if marker.isPrefixOf (c :: rest) then some ((c :: rest).drop marker.length)
    else afterMarker marker rest

/-- The argument of the first `--prefix=` option embedded in a recorded
configure invocation: the characters after the marker up to the closing
single quote. -/
def prefixArgValue (s : String) : Option String :=
  (afterMarker "--prefix=".toList s.toList).map
    (fun cs => String.mk (cs.takeWhile (fun c => c != sq)))

/-- A declaration line `K = "V"` in the persisted format. -/
def mkLine (k v : String) : String :=
  String.mk (serializeLineChars k.toList v.toList)

/-- The field list of the spec's worked example (§8): installation under
`/opt/app`, every optional-driver field present with an empty value. -/
def optPairs : List (String × String) :=
  [("configure_invocation_string", "./configure --prefix=/opt/app"),
   ("driver_flags", ""),
   ("driver_ldflags", ""),
   ("driver_libs", ""),
   ("driver_name", ""),
   ("driver_dir", ""),
   ("driver_version", ""),
   ("sendmail_path", "/usr/sbin/sendmail"),
   ("pear_install_dir", ""),
   ("include_path", ".:"),
   ("extension_dir", "/opt/app/lib/ext"),
   ("install_prefix", "/opt/app"),
   ("binary_dir", "/opt/app/bin"),
   ("admin_binary_dir", "/opt/app/sbin"),
   ("manual_page_dir", "/opt/app/man"),
   ("library_dir", "/opt/app/lib"),
   ("shared_data_dir", "/opt/app/share"),
   ("system_config_dir", "/opt/app/etc"),
   ("variable_state_dir", "/opt/app/var"),
   ("config_file_path", "/opt/app/lib"),
   ("config_file_scan_dir", ""),
   ("shared_lib_suffix", "so"),
   ("shared_lib_ext_pfx", "")]

/-- The example descriptor built from `optPairs`. -/
def optD : ConfigDescriptor := ⟨optPairs⟩

/-- The example source text: one `NAME = "value"` line per field of
`optPairs`, containing in particular `install_prefix = "/opt/app"`,
`binary_dir = "/opt/app/bin"` and the optional-driver block with empty
values. -/
def optSource : List String :=
  optPairs.map (fun kv => mkLine kv.1 kv.2)

/-- The read-only operations a consumer may perform on a loaded descriptor:
`readKey k` calls `get` and `emit` calls `serialize` (the descriptor's whole
public contract besides `load`). -/
inductive Op where
  | readKey : String → Op
  | emit : Op

/-- What one operation returns to its caller. -/
inductive OpResult where
  | value : Except GetError String → OpResult
  | text : List String → OpResult

/-- Run one operation: the pair is the descriptor the caller observes
afterwards together with the operation's result. -/
def applyOp (d : ConfigDescriptor) : Op → ConfigDescriptor × OpResult
  | .readKey k => (d, .value (get d k))
  | .emit => (d, .text (serialize d))

/-- Run a sequence of `get`/`serialize` calls, threading the observed
descriptor through, and collect the results. -/
def runOps : ConfigDescriptor → List Op → ConfigDescriptor × List OpResult
  | d, [] => (d, [])
  | d, o :: os =>
    match applyOp d o with
    | (d2, r) =>
      match runOps d2 os with
      | (d3, rs) => (d3, r :: rs)

/-- A key/value pair a parsed line can produce: the key holds no space and
the value holds no double quote. -/
def goodPair (kv : String × String) : Prop :=
  (∀ c ∈ kv.1.toList, (c != ' ') = true) ∧ (∀ c ∈ kv.2.toList, (c != dq) = true)

theorem takeDropWhile_append_stop (p : Char → Bool) :
    ∀ (k : List Char) (a : Char) (t : List Char),
      (∀ c ∈ k, p c = true) → p a = false →
      (k ++ a :: t).takeWhile p = k ∧ (k ++ a :: t).dropWhile p = a :: t := by
  intro k
  induction k with
  | nil =>
    intro a t _ ha
    constructor
    · rw [List.nil_append, List.takeWhile_cons p a t, if_neg (by simp [ha])]
    · rw [List.nil_append, List.dropWhile_cons, if_neg (by simp [ha])]
  | cons c k ih =>
    intro a t hk ha
    have hc : p c = true := hk c (List.mem_cons_self c k)
    have ih2 := ih a t (fun x hx => hk x (List.mem_cons_of_mem c hx)) ha
    constructor
    · rw [List.cons_append, List.takeWhile_cons p c (k ++ a :: t), if_pos hc, ih2.1]
    · rw [List.cons_append, List.dropWhile_cons, if_pos hc, ih2.2]

theorem parse_of_serialize (k v : List Char)
    (hk : ∀ c ∈ k, (c != ' ') = true) (hv : ∀ c ∈ v, (c != dq) = true) :
    parseLineChars (serializeLineChars k v) = some (k, v) := by
  have hsep := takeDropWhile_append_stop (fun c => c != ' ') k ' '
    ('=' :: ' ' :: dq :: (v ++ [dq])) hk (by simp)
  have hval := takeDropWhile_append_stop (fun c => c != dq) v dq [] hv (by simp)
  have hval1 : (v ++ [dq]).takeWhile (fun c => c != dq) = v := by
    simpa using hval.1
  unfold parseLineChars serializeLineChars
  rw [hsep.2, hsep.1]
  simp only [List.take_succ_cons, List.take_zero, List.drop_succ_cons, List.drop_zero]
  rw [hval1]
  simp

theorem parseLineChars_shape {cs : List Char} {k v : List Char}
    (h : parseLineChars cs = some (k, v)) :
    k = cs.takeWhile (fun c => c != ' ') ∧
      v = ((cs.dropWhile (fun c => c != ' ')).drop 4).takeWhile (fun c => c != dq) := by
  unfold parseLineChars at h
  split at h
  · obtain ⟨h1, h2⟩ := Prod.mk.injEq .. ▸ Option.some.inj h
    exact ⟨h1.symm, h2.symm⟩
  · cases h

theorem parseLineChars_good {cs : List Char} {k v : List Char}
    (h : parseLineChars cs = some (k, v)) :
    (∀ c ∈ k, (c != ' ') = true) ∧ (∀ c ∈ v, (c != dq) = true) := by
  obtain ⟨h1, h2⟩ := parseLineChars_shape h
  constructor
  · intro c hc
    rw [h1] at hc
    have hp := List.mem_takeWhile_imp hc
    exact hp
  · intro c hc
    rw [h2] at hc
    have hp := List.mem_takeWhile_imp hc
    exact hp

theorem parseLines_good :
    ∀ (src : List String) (pairs : List (String × String)),
      parseLines src = some pairs → ∀ kv ∈ pairs, goodPair kv := by
  intro src
  induction src with
  | nil =>
    intro pairs h kv hkv
    simp only [parseLines, Option.some.injEq] at h
    subst h
    cases hkv
  | cons l ls ih =>
    intro pairs h kv hkv
    unfold parseLines at h
    split at h
    · next kv0 rest hline hrest =>
      obtain rfl := Option.some.inj h
      rcases List.mem_cons.mp hkv with rfl | hmem
      · exact parseLineChars_good hline
      · exact ih rest hrest kv hmem
    · cases h

theorem parseLines_keys :
    ∀ (src : List String) (pairs : List (String × String)),
      parseLines src = some pairs →
      ∀ kv ∈ pairs, ∃ l ∈ src, lineKey l = some kv.1 := by
  intro src
  induction src with
  | nil =>
    intro pairs h kv hkv
    simp only [parseLines, Option.some.injEq] at h
    subst h
    cases hkv
  | cons l ls ih =>
    intro pairs h kv hkv
    unfold parseLines at h
    split at h
    · next kv0 rest hline hrest =>
      obtain rfl := Option.some.inj h
      rcases List.mem_cons.mp hkv with rfl | hmem
      · refine ⟨l, List.mem_cons_self l ls, ?_⟩
        unfold lineKey
        rw [hline]
        rfl
      · obtain ⟨l2, hl2, hkey⟩ := ih rest hrest kv hmem
        exact ⟨l2, List.mem_cons_of_mem l hl2, hkey⟩
    · cases h

theorem parseLines_serialize :
    ∀ pairs : List (String × String),
      (∀ kv ∈ pairs, goodPair kv) →
      parseLines (pairs.map serializeLine) = some pairs := by
  intro pairs
  induction pairs with
  | nil => intro _; rfl
  | cons kv rest ih =>
    intro hgood
    have hg := hgood kv (List.mem_cons_self kv rest)
    have h1 : parseLineChars (serializeLine kv).toList =
        some (kv.1.toList, kv.2.toList) :=
      parse_of_serialize kv.1.toList kv.2.toList hg.1 hg.2
    have h2 := ih (fun x hx => hgood x (List.mem_cons_of_mem kv hx))
    simp only [List.map_cons]
    unfold parseLines
    rw [h1, h2]
    rfl

theorem load_ok_fields {src : List String} {d : ConfigDescriptor}
    (h : load src = .ok d) :
    parseLines src = some d.fields ∧ d.fields.map Prod.fst = schema := by
  unfold load at h
  split at h
  · cases h
  · next pairs heq =>
    split at h
    · next hcond =>
      obtain rfl := Except.ok.inj h
      exact ⟨heq, hcond⟩
    · cases h

theorem lookup_mem_keys :
    ∀ (ps : List (String × String)) (k : String),
      k ∈ ps.map Prod.fst → ∃ v, ps.lookup k = some v := by
  intro ps
  induction ps with
  | nil => intro k hk; cases hk
  | cons p ps ih =>
    intro k hk
    obtain ⟨a, b⟩ := p
    by_cases hpk : k = a
    · exact ⟨b, by simp [List.lookup, hpk]⟩
    · have hba : (k == a) = false := beq_eq_false_iff_ne.mpr hpk
      have hk2 : k ∈ (a, b).1 :: ps.map Prod.fst := by
        simpa only [List.map_cons] using hk
      have : k ∈ ps.map Prod.fst := by
        rcases List.mem_cons.mp hk2 with h1 | h1
        · exact absurd h1 hpk
        · exact h1
      obtain ⟨v, hv⟩ := ih k this
      exact ⟨v, by simp [List.lookup, hba, hv]⟩

theorem lookup_not_mem_keys :
    ∀ (ps : List (String × String)) (k : String),
      k ∉ ps.map Prod.fst → ps.lookup k = none := by
  intro ps
  induction ps with
  | nil => intro k _; rfl
  | cons p ps ih =>
    intro k hk
    obtain ⟨a, b⟩ := p
    have hka : k ≠ a := by
      intro hka
      exact hk (by simp [hka])
    have hmem : k ∉ ps.map Prod.fst := by
      intro hmem
      exact hk (by simp [hmem])
    have hba : (k == a) = false := beq_eq_false_iff_ne.mpr hka
    simp [List.lookup, hba, ih k hmem]

theorem lookup_mem_nodup :
    ∀ (ps : List (String × String)) (k v : String),
      (ps.map Prod.fst).Nodup → (k, v) ∈ ps → ps.lookup k = some v := by
  intro ps
  induction ps with
  | nil => intro k v _ hm; cases hm
  | cons p ps ih =>
    intro k v hnd hm
    obtain ⟨a, b⟩ := p
    have hnd1 : ((a, b).1 :: ps.map Prod.fst).Nodup := by
      simpa only [List.map_cons] using hnd
    have hnd2 := List.nodup_cons.mp hnd1
    rcases List.mem_cons.mp hm with heq | hmem
    · injection heq with heqk heqv
      subst heqk
      subst heqv
      simp [List.lookup]
    · have hka : k ≠ a := by
        intro hka
        exact hnd2.1 (by
          subst hka
          exact List.mem_map.mpr ⟨(k, v), hmem, rfl⟩)
      have hba : (k == a) = false := beq_eq_false_iff_ne.mpr hka
      simp [List.lookup, hba, ih k v hnd2.2 hmem]

theorem runOps_fst (ops : List Op) : ∀ d : ConfigDescriptor, (runOps d ops).1 = d := by
  induction ops with
  | nil => intro d; rfl
  | cons o os ih =>
    intro d
    cases o with
    | readKey k => simpa [runOps, applyOp] using ih d
    | emit => simpa [runOps, applyOp] using ih d

/-- C1: for every valid descriptor source, `load` followed by `serialize`
followed by `load` again yields a descriptor equal in every field to the one
produced by the first `load`: `load (serialize d) = ok d`. -/
theorem roundTrip_load_serialize (src : List String) (d : ConfigDescriptor)
    (h : load src = .ok d) : load (serialize d) = .ok d := by
  obtain ⟨hp, hs⟩ := load_ok_fields h
  have hgood := parseLines_good src d.fields hp
  have hser : parseLines (serialize d) = some d.fields :=
    parseLines_serialize d.fields hgood
  unfold load
  rw [hser]
  show (if d.fields.map Prod.fst = schema then Except.ok ⟨d.fields⟩
    else Except.error LoadError.MalformedDescriptor) = Except.ok d
  rw [if_pos hs]

/-- Witness for C1 at the concrete example source. -/
theorem roundTrip_load_serialize_witness :
    load optSource = .ok optD ∧ load (serialize optD) = .ok optD :=
  ⟨rfl, roundTrip_load_serialize optSource optD rfl⟩

/-- C2: a source in which no line declares some required schema key makes
`load` fail with `MalformedDescriptor`; no descriptor is produced and no
default is substituted. -/
theorem load_missing_required_key (src : List String) (k : String)
    (hk : k ∈ schema) (hmiss : ∀ l ∈ src, lineKey l ≠ some k) :
    load src = .error .MalformedDescriptor := by
  unfold load
  split
  · rfl
  · next pairs heq =>
    rw [if_neg]
    intro hcond
    have hkmem : k ∈ pairs.map Prod.fst := by rw [hcond]; exact hk
    obtain ⟨kv, hkv, hfst⟩ := List.mem_map.mp hkmem
    obtain ⟨l, hl, hkey⟩ := parseLines_keys src pairs heq kv hkv
    exact hmiss l hl (by rw [hkey, hfst])

/-- Witness for C2: the empty source misses every required key. -/
theorem load_missing_required_key_witness :
    "install_prefix" ∈ schema ∧ load [] = .error .MalformedDescriptor :=
  ⟨by decide, load_missing_required_key [] "install_prefix" (by decide) (by simp)⟩

/-- C3: on a successfully loaded descriptor, `get` succeeds on every key
declared in the fixed schema. -/
theorem get_total_on_schema (src : List String) (d : ConfigDescriptor)
    (k : String) (h : load src = .ok d) (hk : k ∈ schema) :
    ∃ v, get d k = .ok v := by
  obtain ⟨hp, hs⟩ := load_ok_fields h
  have hkmem : k ∈ d.fields.map Prod.fst := by rw [hs]; exact hk
  obtain ⟨v, hv⟩ := lookup_mem_keys d.fields k hkmem
  exact ⟨v, by simp [get, hv]⟩

/-- Witness for C3 at the concrete example descriptor. -/
theorem get_total_on_schema_witness :
    load optSource = .ok optD ∧ "install_prefix" ∈ schema ∧
      (∃ v, get optD "install_prefix" = .ok v) :=
  ⟨rfl, by decide, get_total_on_schema optSource optD "install_prefix" rfl (by decide)⟩

/-- C4: on a successfully loaded descriptor, `get` fails with `UnknownKey`
on every key outside the fixed schema — the schema is closed and no default
is returned for an undeclared key. -/
theorem get_unknown_key (src : List String) (d : ConfigDescriptor)
    (k : String) (h : load src = .ok d) (hk : k ∉ schema) :
    get d k = .error .UnknownKey := by
  obtain ⟨hp, hs⟩ := load_ok_fields h
  have hkmem : k ∉ d.fields.map Prod.fst := by rw [hs]; exact hk
  simp [get, lookup_not_mem_keys d.fields k hkmem]

/-- Witness for C4 at a key outside the schema. -/
theorem get_unknown_key_witness :
    load optSource = .ok optD ∧ "mystery_key" ∉ schema ∧
      get optD "mystery_key" = .error .UnknownKey :=
  ⟨rfl, by decide, get_unknown_key optSource optD "mystery_key" rfl (by decide)⟩

/-- C5: `load` is deterministic — two textually identical sources load to
field-wise equal descriptors. -/
theorem load_deterministic (s1 s2 : List String) (d1 d2 : ConfigDescriptor)
    (hs : s1 = s2) (h1 : load s1 = .ok d1) (h2 : load s2 = .ok d2) :
    d1 = d2 := by
  subst hs
  rw [h1] at h2
  exact Except.ok.inj h2

/-- Witness for C5 at the concrete example source. -/
theorem load_deterministic_witness :
    load optSource = .ok optD ∧ optD = optD :=
  ⟨rfl, load_deterministic optSource optSource optD optD rfl rfl rfl⟩

/-- C6: every successfully loaded descriptor has each schema key present
exactly once (no duplicate, no omission), and a present field is returned
by `get` exactly as stored — so the empty string is an allowed value,
distinct from the key being absent. -/
theorem loaded_schema_exactly_once (src : List String) (d : ConfigDescriptor)
    (h : load src = .ok d) :
    (∀ k ∈ schema, (d.fields.map Prod.fst).count k = 1) ∧
      (∀ k v, (k, v) ∈ d.fields → get d k = .ok v) := by
  obtain ⟨hp, hs⟩ := load_ok_fields h
  have hnd : (d.fields.map Prod.fst).Nodup := by rw [hs]; decide
  constructor
  · intro k hk
    have hkmem : k ∈ d.fields.map Prod.fst := by rw [hs]; exact hk
    exact List.count_eq_one_of_mem hnd hkmem
  · intro k v hkv
    simp [get, lookup_mem_nodup d.fields k v hnd hkv]

/-- Witness for C6: in the loaded example, `install_prefix` occurs exactly
once and the empty-valued `driver_flags` field is present, not absent. -/
theorem loaded_schema_exactly_once_witness :
    "install_prefix" ∈ schema ∧
      (optD.fields.map Prod.fst).count "install_prefix" = 1 ∧
      ("driver_flags", "") ∈ optD.fields ∧
      get optD "driver_flags" = .ok "" :=
  ⟨by decide,
   (loaded_schema_exactly_once optSource optD rfl).1 "install_prefix" (by decide),
   by decide,
   (loaded_schema_exactly_once optSource optD rfl).2 "driver_flags" "" (by decide)⟩

/-- C7: loading the example source — which contains
`install_prefix = "/opt/app"`, `binary_dir = "/opt/app/bin"` and the
optional-driver block present with empty values — succeeds, and on the
resulting descriptor `get "install_prefix"` is `/opt/app` while
`get "driver_flags"` is the empty string (present and empty, not absent). -/
theorem optional_empty_example :
    load optSource = .ok optD ∧
      get optD "install_prefix" = .ok "/opt/app" ∧
      get optD "driver_flags" = .ok "" :=
  ⟨rfl, rfl, rfl⟩

/-- C8: no operation mutates a loaded descriptor — after any sequence of
`get`/`serialize` calls the observed descriptor equals the descriptor as
loaded (`serialize` has no effect beyond its returned text). -/
theorem no_mutation_after_load (src : List String) (d : ConfigDescriptor)
    (ops : List Op) (_h : load src = .ok d) : (runOps d ops).1 = d :=
  runOps_fst ops d

/-- Witness for C8: a `get` followed by a `serialize` leaves the example
descriptor unchanged. -/
theorem no_mutation_after_load_witness :
    load optSource = .ok optD ∧
      (runOps optD [Op.readKey "install_prefix", Op.emit]).1 = optD :=
  ⟨rfl, no_mutation_after_load optSource optD
    [Op.readKey "install_prefix", Op.emit] rfl⟩

/-- C9: in the concrete descriptor recorded by this artifact, every
installation-layout directory value (binary, admin-binary, manual-page,
library, shared-data, system-config, variable-state, extension and
config-file-path directories) starts with the recorded installation root
`/home/rui/HNP_PHP/php8.3` (the value of `PHP_PREFIX`). -/
theorem layout_dirs_under_install_root :
    layoutDirKeys.all underInstallRoot = true := by decide

/-- C10: the recorded configuration invocation string is consistent with the
other fields — the argument of the `--prefix=` option embedded in
`CONFIGURE_COMMAND` equals the recorded `PHP_PREFIX` value, and both are the
values the descriptor holds. -/
theorem configure_command_consistent :
    prefixArgValue CONFIGURE_COMMAND = some PHP_PREFIX_VALUE ∧
      get theDescriptor "configure_invocation_string" = .ok CONFIGURE_COMMAND ∧
      get theDescriptor "install_prefix" = .ok PHP_PREFIX_VALUE :=
  ⟨rfl, rfl, rfl⟩

end HNPPHP
